import Mathlib

/-!
Verification of the repro_skeleton reproducibility engine.

This file gives a shallow embedding, in Lean, of the content-addressed
store and run engine found in `repro/hashing.py`, `repro/store.py`,
`repro/util.py` and `repro/runner.py`, and proves (or refutes) the
frozen specification claims about them.

Conventions of the embedding:
* bytes are `List Nat` with each element below 256;
* filesystem paths are lists of path components (`List String`);
* the on-disk store is a record of association lists, one per object
  kind, keyed by the same relative paths the Python code uses;
* Python exceptions are `Except String` errors;
* external effects (the wall clock, the host environment probe, the
  structural code hash of the step source, the step module itself and
  the filesystem outside the store) enter the run model as explicit
  arguments, because the Python code reads them from the outside world.
-/

set_option maxRecDepth 100000

namespace Repro

/- ## Basic utilities -/

abbrev Bytes := List Nat

/-- Arithmetic is on 32-bit words represented as `Nat` reduced mod `2 ^ 32`. -/
def M32 : Nat := 4294967296

/-- Take the first `n` characters of a string. -/
def strTake (n : Nat) (s : String) : String := String.mk (s.data.take n)

/-- Drop the first `n` characters of a string (Python slice `s[n:]`). -/
def strDrop (n : Nat) (s : String) : String := String.mk (s.data.drop n)

/-- Python `str.startswith`. -/
def strStarts (s pre : String) : Bool := pre.data.isPrefixOf s.data

/-- Lexicographic order on code-point sequences, as Python compares strings. -/
def codeLt : List Nat → List Nat → Bool
  | _, [] => false
  | [], _ :: _ => true
  | a :: as, b :: bs => a < b || (a == b && codeLt as bs)

/-- Python string `<`. -/
def pyStrLt (a b : String) : Bool :=
  codeLt (a.data.map Char.toNat) (b.data.map Char.toNat)

/-- Stable insertion used to model Python `sorted(...)` on string keys. -/
def insertByKey (key : α → String) (x : α) : List α → List α
  | [] => [x]
  | y :: ys => if pyStrLt (key x) (key y) then x :: y :: ys else y :: insertByKey key x ys

/-- Python `sorted(l, key=key)`: a stable sort by a string key. -/
def sortByKey (key : α → String) (l : List α) : List α :=
  l.foldl (fun acc x => insertByKey key x acc) []

/-- Python `str.strip()` restricted to the ASCII whitespace that can occur
in alias files (the code only ever strips a trailing newline). -/
def isWsChar (c : Char) : Bool :=
  c == ' ' || c == '\n' || c == '\t' || c == '\r' || c == '\x0b' || c == '\x0c'

def pyStrip (s : String) : String :=
  String.mk (((s.data.dropWhile isWsChar).reverse.dropWhile isWsChar).reverse)

/-- UTF-8 encoding of one code point. -/
def utf8Char (c : Nat) : Bytes :=
  if c < 128 then [c]
  else if c < 2048 then [192 ||| (c >>> 6), 128 ||| (c &&& 63)]
  else if c < 65536 then
    [224 ||| (c >>> 12), 128 ||| ((c >>> 6) &&& 63), 128 ||| (c &&& 63)]
  else
    [240 ||| (c >>> 18), 128 ||| ((c >>> 12) &&& 63), 128 ||| ((c >>> 6) &&& 63),
     128 ||| (c &&& 63)]

/-- Python `str.encode("utf-8")`. -/
def utf8 (s : String) : Bytes := (s.data.map (fun ch => utf8Char ch.toNat)).flatten

/- ## SHA-256 (FIPS 180-4), the digest behind `hashlib.sha256` -/

def rotr (n x : Nat) : Nat := ((x >>> n) ||| (x <<< (32 - n))) % M32

def shaCh (x y z : Nat) : Nat := (x &&& y) ^^^ ((x ^^^ 4294967295) &&& z)

def shaMaj (x y z : Nat) : Nat := (x &&& y) ^^^ (x &&& z) ^^^ (y &&& z)

def bsig0 (x : Nat) : Nat := rotr 2 x ^^^ rotr 13 x ^^^ rotr 22 x

def bsig1 (x : Nat) : Nat := rotr 6 x ^^^ rotr 11 x ^^^ rotr 25 x

def ssig0 (x : Nat) : Nat := rotr 7 x ^^^ rotr 18 x ^^^ (x >>> 3)

def ssig1 (x : Nat) : Nat := rotr 17 x ^^^ rotr 19 x ^^^ (x >>> 10)

/-- The 64 SHA-256 round constants. -/
def shaK : List Nat :=
  [1116352408, 1899447441, 3049323471, 3921009573, 961987163, 1508970993,
   2453635748, 2870763221, 3624381080, 310598401, 607225278, 1426881987,
   1925078388, 2162078206, 2614888103, 3248222580, 3835390401, 4022224774,
   264347078, 604807628, 770255983, 1249150122, 1555081692, 1996064986,
   2554220882, 2821834349, 2952996808, 3210313671, 3336571891, 3584528711,
   113926993, 338241895, 666307205, 773529912, 1294757372, 1396182291,
   1695183700, 1986661051, 2177026350, 2456956037, 2730485921, 2820302411,
   3259730800, 3345764771, 3516065817, 3600352804, 4094571909, 275423344,
   430227734, 506948616, 659060556, 883997877, 958139571, 1322822218,
   1537002063, 1747873779, 1955562222, 2024104815, 2227730452, 2361852424,
   2428436474, 2756734187, 3204031479, 3329325298]

/-- Big-endian 8-byte encoding of the message bit length. -/
def be64 (n : Nat) : Bytes :=
  [(n >>> 56) % 256, (n >>> 48) % 256, (n >>> 40) % 256, (n >>> 32) % 256,
   (n >>> 24) % 256, (n >>> 16) % 256, (n >>> 8) % 256, n % 256]

/-- SHA-256 padding: `0x80`, zeros to 56 mod 64, then the 64-bit bit length. -/
def padBytes (msg : Bytes) : Bytes :=
  let len := msg.length
  let zeros := (119 - (len % 64)) % 64
  msg ++ [128] ++ List.replicate zeros 0 ++ be64 (len * 8)

def chunksGo : Nat → Bytes → List Bytes
  | 0, _ => []
  | _, [] => []
  | n + 1, l => l.take 64 :: chunksGo n (l.drop 64)

/-- Split a padded message into 64-byte blocks. -/
def chunk64 (l : Bytes) : List Bytes := chunksGo l.length l

/-- The sixteen big-endian 32-bit words of one 64-byte block. -/
def wordsOf : Bytes → List Nat
  | b0 :: b1 :: b2 :: b3 :: rest =>
    ((b0 <<< 24) ||| (b1 <<< 16) ||| (b2 <<< 8) ||| b3) :: wordsOf rest
  | _ => []

/-- Extend the 16-word message schedule to 64 words. -/
def extendW : Nat → List Nat → List Nat
  | 0, ws => ws
  | n + 1, ws =>
    let i := ws.length
    let x := (ssig1 (ws.getD (i - 2) 0) + ws.getD (i - 7) 0 + ssig0 (ws.getD (i - 15) 0) +
      ws.getD (i - 16) 0) % M32
    extendW n (ws ++ [x])

/-- The eight-word SHA-256 working state. -/
structure St8 where
  a : Nat
  b : Nat
  c : Nat
  d : Nat
  e : Nat
  f : Nat
  g : Nat
  h : Nat

def roundStep (s : St8) (kw : Nat × Nat) : St8 :=
  let t1 := (s.h + bsig1 s.e + shaCh s.e s.f s.g + kw.1 + kw.2) % M32
  let t2 := (bsig0 s.a + shaMaj s.a s.b s.c) % M32
  ⟨(t1 + t2) % M32, s.a, s.b, s.c, (s.d + t1) % M32, s.e, s.f, s.g⟩

def compressBlock (s : St8) (block : Bytes) : St8 :=
  let ws := extendW 48 (wordsOf block)
  let r := (shaK.zip ws).foldl roundStep s
  ⟨(s.a + r.a) % M32, (s.b + r.b) % M32, (s.c + r.c) % M32, (s.d + r.d) % M32,
   (s.e + r.e) % M32, (s.f + r.f) % M32, (s.g + r.g) % M32, (s.h + r.h) % M32⟩

def sha256St (msg : Bytes) : St8 :=
  (chunk64 (padBytes msg)).foldl compressBlock
    ⟨1779033703, 3144134277, 1013904242, 2773480762, 1359893119, 2600822924, 528734635, 1541459225⟩

def hexDigit (n : Nat) : Char := if n < 10 then Char.ofNat (48 + n) else Char.ofNat (87 + n)

def hex8 (w : Nat) : List Char :=
  [hexDigit ((w >>> 28) % 16), hexDigit ((w >>> 24) % 16), hexDigit ((w >>> 20) % 16),
   hexDigit ((w >>> 16) % 16), hexDigit ((w >>> 12) % 16), hexDigit ((w >>> 8) % 16),
   hexDigit ((w >>> 4) % 16), hexDigit (w % 16)]

/-- Lowercase hex digest of a byte string, as `hashlib.sha256(...).hexdigest()`. -/
def sha256Hex (msg : Bytes) : String :=
  let s := sha256St msg
  String.mk (hex8 s.a ++ hex8 s.b ++ hex8 s.c ++ hex8 s.d ++ hex8 s.e ++ hex8 s.f ++
    hex8 s.g ++ hex8 s.h)

/- ## `repro/hashing.py` -/

/-- `hashing.sha256_bytes`: digest of a byte string, as `sha256:<hex>`. -/
def sha256_bytes (data : Bytes) : String := "sha256:" ++ sha256Hex data

/-- `hashing.sha256_file`: the streaming file digest.  Streaming a file in
8 MiB chunks digests exactly the file bytes, so on the byte content of a
file it coincides with `sha256_bytes`. -/
def sha256_file (content : Bytes) : String := sha256_bytes content

/-- JSON values as produced by the Python code: the reference only ever
serializes null, booleans, integers, strings, lists/tuples, and
string-keyed dicts (dicts keep insertion order, modeled by a pair list). -/
inductive Json where
  | jnull
  | jbool (b : Bool)
  | jint (n : Int)
  | jstr (s : String)
  | jarr (xs : List Json)
  | jobj (kvs : List (String × Json))
deriving Repr

/-- One escaped character of a JSON string literal, following
`json.dumps` with `ensure_ascii=False`: quote and backslash are escaped,
control characters get their short escapes or `\u00XX`, and every other
character passes through. -/
def escChar (c : Char) : List Char :=
  if c = '"' then ['\\', '"']
  else if c = '\\' then ['\\', '\\']
  else if c = '\n' then ['\\', 'n']
  else if c = '\t' then ['\\', 't']
  else if c = '\r' then ['\\', 'r']
  else if c = '\x08' then ['\\', 'b']
  else if c = '\x0c' then ['\\', 'f']
  else if c.toNat < 32 then ['\\', 'u', '0', '0', hexDigit (c.toNat / 16), hexDigit (c.toNat % 16)]
  else [c]

/-- A JSON string literal. -/
def jquote (s : String) : String := "\"" ++ String.mk ((s.data.map escChar).flatten) ++ "\""

mutual
/-- `json.dumps(obj, sort_keys=True, separators=(isep, ksep), ensure_ascii=False)`.
Keys are sorted at every level; sorting the serialized key/value pairs by
key is the same as sorting the keys first, because each value serializes
independently of its siblings. -/
def serSep (isep ksep : String) : Json → String
  | .jnull => "null"
  | .jbool b => cond b "true" "false"
  | .jint n => toString n
  | .jstr s => jquote s
  | .jarr xs => "[" ++ String.intercalate isep (serSepList isep ksep xs) ++ "]"
  | .jobj kvs =>
    "\x7b" ++ String.intercalate isep
      ((sortByKey Prod.fst (serSepPairs isep ksep kvs)).map
        (fun kv => jquote kv.1 ++ ksep ++ kv.2)) ++ "\x7d"
def serSepList (isep ksep : String) : List Json → List String
  | [] => []
  | x :: xs => serSep isep ksep x :: serSepList isep ksep xs
def serSepPairs (isep ksep : String) : List (String × Json) → List (String × String)
  | [] => []
  | (k, v) :: kvs => (k, serSep isep ksep v) :: serSepPairs isep ksep kvs
end

/-- `hashing.canonical_json`: UTF-8, sorted keys, separators `(",", ":")`. -/
def canonical_json (obj : Json) : Bytes := utf8 (serSep "," ":" obj)

/-- `json.dumps(obj, sort_keys=True, ensure_ascii=False)` with the default
separators `(", ", ": ")`, used by `store.commit_tree` for the tree file. -/
def serPlain (obj : Json) : String := serSep ", " ": " obj

/-- `hashing.combine_hashes`: join the ids with `"|"` and digest the UTF-8
bytes of the joined string. -/
def combine_hashes (ids : List String) : String :=
  sha256_bytes (utf8 (String.intercalate "|" ids))

/- ## Directory snapshots (`hashing.iter_files` / `hashing.tree_snapshot`) -/

/-- One regular file of a directory being snapshotted: its relative POSIX
path, its byte content, and the metadata (`mtime`, `mode`) that `os.stat`
reports but that the snapshot never reads except for `st_size`. -/
structure DirFile where
  path : String
  content : Bytes
  mtime : Nat
  mode : Nat
deriving Repr, DecidableEq

/-- A directory is the list of its regular files, in filesystem walk order. -/
abbrev Dir := List DirFile

/-- `hashing.tree_snapshot` entry record. -/
structure TreeEntry where
  path : String
  blob : String
  size : Nat
deriving Repr, DecidableEq

/-- `iter_files` walks the tree and yields the relative paths sorted; the
snapshot then reads each file by path.  Since walk paths are distinct,
sorting the file records by path is the same as sorting the paths and
re-reading each file. -/
def iter_sorted (root : Dir) : Dir := sortByKey (fun f => f.path) root

/-- `hashing.tree_snapshot`: blob ids and sizes for the sorted files, and
the tree id, which is the digest of the canonical JSON of the
`[path, blob_id]` pairs only. -/
def tree_snapshot (root : Dir) : String × List TreeEntry :=
  let files := iter_sorted root
  let entries := files.map (fun f => TreeEntry.mk f.path (sha256_file f.content) f.content.length)
  let pairs := Json.jarr (files.map (fun f =>
    Json.jarr [Json.jstr f.path, Json.jstr (sha256_file f.content)]))
  (sha256_bytes (canonical_json pairs), entries)

/- ## `repro/store.py` -/

/-- A filesystem path, as a list of components relative to the store root. -/
abbrev SPath := List String

/-- `store._fanout_dir`: `store / "<kind>/sha256" / hex[:2] / hex[2:]`. -/
def fanoutDir (kind : String) (digestHex : String) : SPath :=
  [kind, "sha256", strTake 2 digestHex, strDrop 2 digestHex]

/-- First-match association-list lookup (the newest write shadows older
entries, matching file overwrite). -/
def lookupKey [BEq κ] (l : List (κ × β)) (k : κ) : Option β :=
  (l.find? (fun e => e.1 == k)).map (fun e => e.2)

/-- How many entries a key owns (an on-disk path holds at most one file,
so a faithful commit must keep this at one). -/
def countKey [BEq κ] (l : List (κ × β)) (k : κ) : Nat :=
  (l.filter (fun e => e.1 == k)).length

/-- The on-disk CAS store: blobs, trees, manifests keyed by their relative
path under the store root, aliases keyed by alias name.  A tree file
stores its serialized bytes; the parsed `entries` of its
(version, entries) document are carried alongside because `read_tree`
returns `json.loads` of those bytes, and `json.loads` inverts the dump
that wrote them. -/
structure Store where
  blobs : List (SPath × Bytes)
  trees : List (SPath × (Bytes × List TreeEntry))
  manifests : List (SPath × Bytes)
  aliases : List (String × String)
deriving Repr

def emptyStore : Store := ⟨[], [], [], []⟩

/-- `store.commit_blob`: digest the source file; if its fan-out path is
already present the commit is a no-op, otherwise the bytes are published
at that path (the temp-then-rename dance is invisible at this level).
`blob_id.split(":", 1)[1]` is the hex after the 7-character `sha256:`. -/
def commit_blob (store : Store) (srcBytes : Bytes) : Store × String :=
  let blob_id := sha256_file srcBytes
  let digest_hex := strDrop 7 blob_id
  let dst := fanoutDir "blobs" digest_hex
  if (lookupKey store.blobs dst).isSome then (store, blob_id)
  else ({ store with blobs := (dst, srcBytes) :: store.blobs }, blob_id)

/-- `store.blob_path`: pure path function for a raw `sha256:<hex>` id. -/
def blob_path (blob_id : String) : SPath := fanoutDir "blobs" (strDrop 7 blob_id)

/-- The (version = 1, entries = [...]) JSON document of a tree. -/
def entryJson (e : TreeEntry) : Json :=
  .jobj [("path", .jstr e.path), ("blob", .jstr e.blob), ("size", .jint e.size)]

def treeDoc (entries : List TreeEntry) : Json :=
  .jobj [("version", .jint 1), ("entries", .jarr (entries.map entryJson))]

/-- Read one file of a directory by relative path (`src_dir / e["path"]`);
the paths handed in always come from the directory itself. -/
def dirRead (root : Dir) (rel : String) : Bytes :=
  match root.find? (fun f => f.path == rel) with
  | some f => f.content
  | none => []

/-- `store.commit_tree`: snapshot the directory; if the tree file is
absent, first commit every referenced blob, then publish the document
serialized by `json.dumps(data, sort_keys=True, ensure_ascii=False)`. -/
def commit_tree (store : Store) (src_dir : Dir) : Store × String × List TreeEntry :=
  let r := tree_snapshot src_dir
  let tree_id := r.1
  let entries := r.2
  let digest_hex := strDrop 7 tree_id
  let tree_file := fanoutDir "trees" digest_hex
  if (lookupKey store.trees tree_file).isSome then (store, "tree:" ++ tree_id, entries)
  else
    let store1 := entries.foldl (fun st e => (commit_blob st (dirRead src_dir e.path)).1) store
    let data := treeDoc entries
    ({ store1 with trees := (tree_file, (utf8 (serPlain data), entries)) :: store1.trees },
      "tree:" ++ tree_id, entries)

/-- `store.read_tree`: load the tree JSON for a `tree:sha256:<hex>` id and
return its parsed document (we return its `entries`; the only other field
is the constant version).  A missing tree file raises. -/
def read_tree (store : Store) (tree_typed_id : String) : Except String (List TreeEntry) :=
  let digest_hex := strDrop 12 tree_typed_id
  match lookupKey store.trees (fanoutDir "trees" digest_hex) with
  | some v => .ok v.2
  | none => .error ("read_tree: no tree file for " ++ tree_typed_id)

/-- `store.manifest_path`: the manifests fan-out path with `.json`
appended by `with_suffix` (a bare hex name has no suffix to replace). -/
def manifest_path (run_id : String) : SPath :=
  let digest_hex := strDrop 7 run_id
  ["manifests", "sha256", strTake 2 digest_hex, strDrop 2 digest_hex ++ ".json"]

/-- `json.dumps(manifest, indent=2, ensure_ascii=False)`: with `indent`
set, Python separates items by `","` plus a newline and keys by `": "`,
and does not sort keys. -/
def indentStr (lvl : Nat) : String := String.mk (List.replicate (2 * lvl) ' ')

mutual
def serPretty (lvl : Nat) : Json → String
  | .jnull => "null"
  | .jbool b => cond b "true" "false"
  | .jint n => toString n
  | .jstr s => jquote s
  | .jarr [] => "[]"
  | .jarr (x :: xs) =>
    "[\n" ++ String.intercalate ",\n"
      ((serPrettyList (lvl + 1) (x :: xs)).map (fun s => indentStr (lvl + 1) ++ s)) ++
    "\n" ++ indentStr lvl ++ "]"
  | .jobj [] => "\x7b\x7d"
  | .jobj (kv :: kvs) =>
    "\x7b\n" ++ String.intercalate ",\n"
      ((serPrettyPairs (lvl + 1) (kv :: kvs)).map
        (fun p => indentStr (lvl + 1) ++ jquote p.1 ++ ": " ++ p.2)) ++
    "\n" ++ indentStr lvl ++ "\x7d"
def serPrettyList (lvl : Nat) : List Json → List String
  | [] => []
  | x :: xs => serPretty lvl x :: serPrettyList lvl xs
def serPrettyPairs (lvl : Nat) : List (String × Json) → List (String × String)
  | [] => []
  | (k, v) :: kvs => (k, serPretty lvl v) :: serPrettyPairs lvl kvs
end

/-- `store.write_manifest`: atomic pretty-printed JSON write at
`manifest_path(run_id)`. -/
def write_manifest (store : Store) (run_id : String) (manifest : Json) : Store :=
  { store with manifests := (manifest_path run_id, utf8 (serPretty 0 manifest)) :: store.manifests }

/-- `store.alias_set`: write the target plus one newline to the alias
file (alias files store text; `utf8` encode and decode cancel). -/
def alias_set (store : Store) (name target : String) : Store :=
  { store with aliases := (name, target ++ "\n") :: store.aliases }

/-- `store.alias_get`: `None` when the alias file is missing, otherwise
the stripped text of the file. -/
def alias_get (store : Store) (name : String) : Option String :=
  (lookupKey store.aliases name).map pyStrip

/- ## `repro/util.py` -/

/-- A node of the working filesystem outside the store: a directory, a
regular file with its bytes, or a symbolic link with its target path. -/
inductive FsNode where
  | dirN
  | fileN (content : Bytes)
  | symlinkN (target : SPath)
deriving Repr, DecidableEq

/-- The working filesystem (temp and run directories) as a path-keyed map. -/
abbrev FS := List (SPath × FsNode)

def fsLookup (fs : FS) (p : SPath) : Option FsNode := lookupKey fs p

def fsExists (fs : FS) (p : SPath) : Bool := (fsLookup fs p).isSome

/-- Overwrite the node at a path. -/
def fsSet (fs : FS) (p : SPath) (n : FsNode) : FS :=
  (p, n) :: fs.filter (fun e => e.1 ≠ p)

/-- `shutil.rmtree`: drop the path and everything beneath it. -/
def fsRmtree (fs : FS) (p : SPath) : FS := fs.filter (fun e => ¬ p.isPrefixOf e.1)

/-- `Path.unlink`: drop exactly the path. -/
def fsUnlink (fs : FS) (p : SPath) : FS := fs.filter (fun e => e.1 ≠ p)

/-- The proper ancestors of a path, shortest first. -/
def ancestors (p : SPath) : List SPath :=
  ((List.range p.length).drop 1).map (fun i => p.take i)

/-- `dst.parent.mkdir(parents=True, exist_ok=True)`. -/
def mkParents (fs : FS) (dst : SPath) : FS :=
  (ancestors dst).foldl (fun acc q => if fsExists acc q then acc else fsSet acc q .dirN) fs

/-- `dst.mkdir(parents=True, exist_ok=True)`. -/
def mkdirAll (fs : FS) (dst : SPath) : FS :=
  let fs1 := mkParents fs dst
  if fsExists fs1 dst then fs1 else fsSet fs1 dst .dirN

/-- Which linking system calls this filesystem supports: `os.symlink`
and `os.link` raise when unsupported, which is exactly what the fallback
chain catches. -/
structure Caps where
  symlinkOk : Bool
  hardlinkOk : Bool
deriving Repr, DecidableEq

/-- `util.prefer_link`, with `src` a store blob path: ensure the parent
directories, remove an existing destination (rmtree for a non-symlink
directory, unlink otherwise), then try symlink, hardlink, copy in order.
`os.symlink` records the target without reading it, so it succeeds even
when `src` is missing from the store; `os.link` and `shutil.copy2` need
the source bytes and raise without them.  A store blob path is never a
directory, so the directory branches of the hardlink and copy steps are
dead here. -/
def prefer_link (caps : Caps) (store : Store) (fs : FS) (src dst : SPath) :
    Except String (FS × String) :=
  let fs1 := mkParents fs dst
  let fs2 :=
    if fsExists fs1 dst then
      if fsLookup fs1 dst = some .dirN then fsRmtree fs1 dst else fsUnlink fs1 dst
    else fs1
  let srcBytes := lookupKey store.blobs src
  if caps.symlinkOk then .ok (fsSet fs2 dst (.symlinkN src), "symlink")
  else if caps.hardlinkOk && srcBytes.isSome then
    .ok (fsSet fs2 dst (.fileN (srcBytes.getD [])), "hardlink")
  else
    match srcBytes with
    | some b => .ok (fsSet fs2 dst (.fileN b), "copy")
    | none => .error "copy failed: missing source"

/- ## `repro/runner.py` -/

/-- `logical_name`-keyed manifest entry a resolved input produces. -/
structure InputEntry where
  typ : String
  id : String
  origin : String
deriving Repr, DecidableEq

/-- Split a POSIX relative path at `/` (structural worker). -/
def splitSlashGo : List Char → List Char → List String
  | [], acc => [String.mk acc.reverse]
  | c :: cs, acc =>
    if c = '/' then String.mk acc.reverse :: splitSlashGo cs [] else splitSlashGo cs (c :: acc)

/-- `e["path"]` may hold a multi-component relative POSIX path; `dst / rel`
appends its components. -/
def splitSlash (rel : String) : SPath := splitSlashGo rel.data []

/-- The per-entry loop of `materialize_input` for a tree.  For each entry
the blob path and output path are computed and the parent directories
made; the link itself is guarded by `used`: Python evaluates
`prefer_link(src, out) if used is None else used or prefer_link(src, out)`,
and once `used` holds one of the non-empty strings `"symlink"`,
`"hardlink"`, `"copy"`, the `or` short-circuits, so `prefer_link` runs for
the first entry only. -/
def matLoop (caps : Caps) (store : Store) (dst : SPath) :
    FS → Option String → List TreeEntry → Except String (FS × String)
  | fs, used, [] => .ok (fs, used.getD "copy")
  | fs, used, e :: rest =>
    let src := blob_path e.blob
    let out := dst ++ splitSlash e.path
    let fs1 := mkParents fs out
    match used with
    | none =>
      match prefer_link caps store fs1 src out with
      | .error err => .error err
      | .ok r => matLoop caps store dst r.1 (some r.2) rest
    | some u => matLoop caps store dst fs1 (some u) rest

/-- `runner.materialize_input`: link a blob id to `dst`, or make `dst` a
directory and run the entry loop of a tree id; other ids raise.
`typed_id.split(":", 2)[2]` drops the 12-character typed prefix. -/
def materialize_input (caps : Caps) (store : Store) (fs : FS) (typed_id : String) (dst : SPath) :
    Except String (FS × String) :=
  if strStarts typed_id "blob:sha256:" then
    let blob := strDrop 12 typed_id
    let src := blob_path ("sha256:" ++ blob)
    prefer_link caps store fs src dst
  else if strStarts typed_id "tree:sha256:" then
    match read_tree store typed_id with
    | .error e => .error e
    | .ok entries => matLoop caps store dst (mkdirAll fs dst) none entries
  else .error ("Cannot materialize id: " ++ typed_id)

/-- What the world outside the store holds at a user-supplied path:
`@<path>` adoption reads it. -/
inductive DiskEntry where
  | fileD (content : Bytes)
  | dirD (d : Dir)
deriving Repr

abbrev ExtDisk := List (String × DiskEntry)

/-- `runner.resolve_input_spec`.  The Python function recurses through
`alias:` targets with no depth bound whatsoever; `fuel` makes that
recursion a total function, one unit per dereference, so exhausted fuel
means the Python call is still recursing at that depth (ultimately a
`RecursionError` once the interpreter stack runs out).
`split(":", 1)[1]` and `split(":", 2)[2]` become prefix drops, which is
what they compute on the strings each branch has already matched. -/
def resolve_input_spec (ext : ExtDisk) :
    Nat → Store → String → Except String (Store × String × InputEntry)
  | fuel, store, spec =>
    if strStarts spec "@" then
      match lookupKey ext (strDrop 1 spec) with
      | some (.dirD d) =>
        let r := commit_tree store d
        .ok (r.1, r.2.1, ⟨"dir", strDrop 5 r.2.1, "adopted"⟩)
      | some (.fileD b) =>
        let r := commit_blob store b
        .ok (r.1, "blob:" ++ r.2, ⟨"file", strDrop 7 r.2, "adopted"⟩)
      | none => .error ("cannot adopt missing path: " ++ strDrop 1 spec)
    else if strStarts spec "alias:" then
      match alias_get store (strDrop 6 spec) with
      | none => .error ("Alias not found: " ++ spec)
      | some target =>
        match fuel with
        | 0 => .error "RecursionError"
        | n + 1 => resolve_input_spec ext n store target
    else if strStarts spec "blob:sha256:" then
      .ok (store, spec, ⟨"file", strDrop 12 spec, "derived"⟩)
    else if strStarts spec "tree:sha256:" then
      .ok (store, spec, ⟨"dir", strDrop 12 spec, "derived"⟩)
    else .error ("Unsupported input spec: " ++ spec)

/-- One top-level output in the manifest: `type`, id, size. -/
structure OutputRec where
  typ : String
  id : String
  size : Nat
deriving Repr, DecidableEq

/-- What the save phase left at the top level of `ctx.output_dir`. -/
inductive OutEntry where
  | fileO (content : Bytes)
  | dirO (d : Dir)
deriving Repr

abbrev OutDir := List (String × OutEntry)

/-- `runner.scan_outputs_and_commit`: walk the top-level entries in
sorted name order; a directory is committed as a tree (size the sum of
its entry sizes), a file as a blob (size its byte count).  A directory id
keeps its `sha256:` prefix (`split(":", 1)[1]` of the typed id) while a
file id is bare hex, exactly as the code slices them. -/
def scan_outputs_and_commit (store : Store) (out_dir : OutDir) :
    Store × List (String × OutputRec) :=
  (sortByKey Prod.fst out_dir).foldl
    (fun acc nv =>
      match nv.2 with
      | .dirO d =>
        let r := commit_tree acc.1 d
        let total := (r.2.2.map (fun e => e.size)).sum
        (r.1, acc.2 ++ [(nv.1, ⟨"dir", strDrop 5 r.2.1, total⟩)])
      | .fileO b =>
        let r := commit_blob acc.1 b
        (r.1, acc.2 ++ [(nv.1, ⟨"file", strDrop 7 r.2, b.length⟩)]))
    (store, [])

/-- `context.RunContext`: the container handed to the user phases. -/
structure RunCtx where
  run_dir : SPath
  input_dir : SPath
  output_dir : SPath
  params : Json
  env : Json

/-- The three decorated phase functions of a step module.  Each may raise.
`save` writes below `ctx.output_dir`; its model returns the top-level
content of that directory after the phase. -/
structure StepFns where
  load : RunCtx → Except String Json
  core : RunCtx → Json → Except String Json
  save : RunCtx → Json → Except String OutDir

/-- The arguments of one `run_step_file` call, together with the values
the engine reads from the outside world during the run: the structural
code hash of the step source (`code_hash_ast`), the environment summary
(`minimal_env_summary`), the wall-clock timestamp (`utc_now_iso`), and
the linking capabilities of the filesystem. -/
structure RunArgs where
  step_name : String
  step_path : String
  code_h : String
  params_eff : Json
  params_prov : Json
  input_specs : List (String × String)
  env_summary : Json
  timestamp : String
  aliasName : Option String
  caps : Caps
  fuel : Nat

/-- Observable milestones of one run, in the order they happen. -/
inductive REvent where
  | materializedInput (name : String)
  | phaseStart (p : String)
  | committedOutput (name : String)
  | wroteManifest (run_id : String)
  | aliasSet (name : String)
deriving Repr, DecidableEq

/-- Outcome of a run: the store as left on disk (side effects persist
even when an exception aborts the run), the event trace, and the run id
or the propagated exception. -/
structure RunResult where
  store : Store
  events : List REvent
  result : Except String String

/-- The input loop of `run_step_file`: resolve each spec and materialize
it at `<in_temp>/<name>` (the fresh private temp directory is the empty
filesystem at path `repro_in`).  An exception stops the loop; the store
side effects of completed iterations persist.  A failing resolution has
made no commit of its own (every error branch of `resolve_input_spec`
raises before writing), so the store of the failed iteration is the store
it started with. -/
def runInputs (ext : ExtDisk) (caps : Caps) (fuel : Nat) :
    Store → FS → List REvent → List (String × String) → List (String × InputEntry) →
    Store × FS × List REvent × Except String (List (String × InputEntry))
  | store, fs, evs, [], acc => (store, fs, evs, .ok acc)
  | store, fs, evs, (name, spec) :: rest, acc =>
    match resolve_input_spec ext fuel store spec with
    | .error e => (store, fs, evs, .error e)
    | .ok (store1, typed_id, entry) =>
      match materialize_input caps store1 fs typed_id ["repro_in", name] with
      | .error e => (store1, fs, evs, .error e)
      | .ok (fs1, _) =>
        runInputs ext caps fuel store1 fs1 (evs ++ [.materializedInput name]) rest
          (acc ++ [(name, entry)])

/-- `triples = [(n, v["type"], v["id"]) for n, v in sorted(inputs_map.items())]`,
as the canonical-JSON value it is hashed as (tuples serialize as arrays). -/
def inputTriples (inputs_map : List (String × InputEntry)) : Json :=
  .jarr ((sortByKey Prod.fst inputs_map).map (fun nv =>
    .jarr [.jstr nv.1, .jstr nv.2.typ, .jstr nv.2.id]))

def inputItemJson (nv : String × InputEntry) : Json :=
  .jobj [("logical_name", .jstr nv.1), ("type", .jstr nv.2.typ), ("id", .jstr nv.2.id),
    ("origin", .jstr nv.2.origin)]

def outputItemJson (nv : String × OutputRec) : Json :=
  .jobj [("logical_name", .jstr nv.1), ("type", .jstr nv.2.typ), ("id", .jstr nv.2.id),
    ("size", .jint nv.2.size)]

/-- The manifest document, fields in the insertion order of the Python
dict literal. -/
def manifestJson (args : RunArgs) (run_id params_hash env_hash : String)
    (inputs_map : List (String × InputEntry)) (outputs_map : List (String × OutputRec)) : Json :=
  .jobj [
    ("manifest_version", .jint 1),
    ("run_id", .jstr run_id),
    ("timestamp_utc", .jstr args.timestamp),
    ("step", .jobj [("name", .jstr args.step_name), ("path", .jstr args.step_path),
      ("code_hash", .jstr args.code_h)]),
    ("parameters", .jobj [("effective", args.params_eff), ("provenance", args.params_prov),
      ("hash", .jstr params_hash)]),
    ("environment", .jobj [("summary", args.env_summary), ("hash", .jstr env_hash)]),
    ("inputs", .jarr ((sortByKey Prod.fst inputs_map).map inputItemJson)),
    ("outputs", .jarr ((sortByKey Prod.fst outputs_map).map outputItemJson)),
    ("io_summary", .jobj []),
    ("host", .jobj []),
    ("tool", .jobj [("name", .jstr "repro-skeleton"), ("version", .jstr "0.1.0")])
  ]

/-- `run_id = combine_hashes(code_h, input_hash, params_hash, env_hash)`. -/
def computeRunId (code_h input_hash params_hash env_hash : String) : String :=
  combine_hashes [code_h, input_hash, params_hash, env_hash]

/-- `runner.run_step_file`.  Stages, in source order: resolve and
materialize every input; compute the input, environment and parameter
hashes and from them the run id; set up the run working directory and
copy the materialized inputs into `run_dir/in` (pure staging of bytes the
model needs no further record of); invoke load, core, save; scan and
commit the outputs; assemble and write the manifest; set the optional
alias; clean up (cleanup failures are swallowed and change no store
state).  Any phase exception propagates immediately, leaving the store
exactly as the completed stages left it. -/
def run_step_file (ext : ExtDisk) (fns : StepFns) (args : RunArgs) (store0 : Store) : RunResult :=
  match runInputs ext args.caps args.fuel store0 [] [] args.input_specs [] with
  | (storeI, _, evs, .error e) => ⟨storeI, evs, .error e⟩
  | (store1, _, evs, .ok inputs_map) =>
    let input_hash := sha256_bytes (canonical_json (inputTriples inputs_map))
    let env_hash := sha256_bytes (canonical_json args.env_summary)
    let params_hash := sha256_bytes (canonical_json args.params_eff)
    let run_id := computeRunId args.code_h input_hash params_hash env_hash
    let run_dir : SPath := ["tmp", "run-" ++ strDrop 7 run_id]
    let ctx : RunCtx := ⟨run_dir, run_dir ++ ["in"], run_dir ++ ["out"],
      args.params_eff, args.env_summary⟩
    match fns.load ctx with
    | .error e => ⟨store1, evs ++ [.phaseStart "load"], .error e⟩
    | .ok loaded =>
      match fns.core ctx loaded with
      | .error e => ⟨store1, evs ++ [.phaseStart "load", .phaseStart "core"], .error e⟩
      | .ok results =>
        match fns.save ctx results with
        | .error e =>
          ⟨store1, evs ++ [.phaseStart "load", .phaseStart "core", .phaseStart "save"], .error e⟩
        | .ok out_dir =>
          let r := scan_outputs_and_commit store1 out_dir
          let manifest := manifestJson args run_id params_hash env_hash inputs_map r.2
          let store3 := write_manifest r.1 run_id manifest
          let store4 :=
            match args.aliasName with
            | some a => alias_set store3 a ("run:" ++ run_id)
            | none => store3
          ⟨store4,
            evs ++ [.phaseStart "load", .phaseStart "core", .phaseStart "save"] ++
              (r.2.map (fun nv => REvent.committedOutput nv.1)) ++ [.wroteManifest run_id] ++
              (match args.aliasName with | some a => [REvent.aliasSet a] | none => []),
            .ok run_id⟩

/- ## Definitions used to state the claims -/

/-- The data of a directory file that the snapshot digest may depend on:
relative path and byte content, metadata projected away. -/
def dirData (f : DirFile) : String × Bytes := (f.path, f.content)

/-- The `[path, blob]` pair list of a tree's entries, as a JSON value:
what the spec says the tree digest is computed over. -/
def entryPairsJson (entries : List TreeEntry) : Json :=
  .jarr (entries.map (fun e => .jarr [.jstr e.path, .jstr e.blob]))

/-- The storage name of a tree or blob fan-out path: third and fourth
components joined (`<first-2-hex>` plus the rest). -/
def treeNameHex (p : SPath) : String := p.getD 2 "" ++ p.getD 3 ""

/-- Does re-canonicalizing and hashing a stored tree document give back
the hex under which the tree file is stored?  Claim I2 says always. -/
def recanonMatches (pr : SPath × (Bytes × List TreeEntry)) : Bool :=
  sha256_bytes (canonical_json (treeDoc pr.2.2)) == "sha256:" ++ treeNameHex pr.1

/-- The part of invariant I2 the code actually maintains: a stored tree's
name hex is the digest of the canonical JSON of the `[path, blob]` pairs
of its entries, and the stored bytes are the sorted-keys dump of the
(version, entries) document. -/
def treeInv (store : Store) : Prop :=
  ∀ pr ∈ store.trees,
    pr.1 = fanoutDir "trees" (strDrop 7 (sha256_bytes (canonical_json (entryPairsJson pr.2.2)))) ∧
    pr.2.1 = utf8 (serPlain (treeDoc pr.2.2))

/-- Concrete one-file directory for the C4 counterexample. -/
def d4 : Dir := [⟨"a.txt", [65], 0, 0⟩]

/-- Concrete two-file directory for the C2 failing input. -/
def d2 : Dir := [⟨"a.txt", [65], 0, 0⟩, ⟨"b.txt", [66], 0, 0⟩]

/-- The store holding the committed two-entry tree of `d2`. -/
def store2 : Store := (commit_tree emptyStore d2).1

/-- The typed id of that tree. -/
def tid2 : String := (commit_tree emptyStore d2).2.1

/-- Materializing the two-entry tree on a symlink-capable filesystem
into a fresh destination `dest`. -/
def matRes2 : Except String (FS × String) :=
  materialize_input ⟨true, true⟩ store2 [] tid2 ["dest"]

/-- A step module whose three phases succeed and write nothing. -/
def cFns : StepFns := ⟨fun _ => .ok .jnull, fun _ _ => .ok .jnull, fun _ _ => .ok []⟩

/-- A step module whose load phase raises. -/
def cFnsBad : StepFns :=
  ⟨fun _ => .error "load failed", fun _ _ => .ok .jnull, fun _ _ => .ok []⟩

/-- Concrete run arguments for the C1 counterexample: identical except
for the wall-clock timestamp. -/
def cArgs1 : RunArgs :=
  ⟨"s", "/s.py", "sha256:aa", .jobj [], .jobj [], [], .jobj [],
    "2024-01-01T00:00:00Z", none, ⟨true, true⟩, 8⟩

def cArgs2 : RunArgs :=
  ⟨"s", "/s.py", "sha256:aa", .jobj [], .jobj [], [], .jobj [],
    "2024-01-01T00:00:01Z", none, ⟨true, true⟩, 8⟩

/-- Concrete run arguments for the C1 witness: same code hash, inputs,
params and environment summary as `cArgs1` but different step name,
provenance, timestamp and alias. -/
def cArgs3 : RunArgs :=
  ⟨"t", "/t.py", "sha256:aa", .jobj [], .jobj [("p", .jstr "CLI")], [], .jobj [],
    "2024-02-02T00:00:00Z", some "runs/latest", ⟨true, true⟩, 8⟩

/-- The run id all these runs derive (digest of the shared
code/input/params/env hashes). -/
def c1rid : String := "sha256:fb833512e9857837352808d2b8cb614edfbc80036fac737d9a808b9b80ceb16f"

/-- The circular alias store for C3: alias `a` points at `alias:a`. -/
def cyclicStore : Store := alias_set emptyStore "a" "alias:a"

/- ## Helper lemmas -/

theorem strStarts_append (pre rest : String) : strStarts (pre ++ rest) pre = true := by
  simp [strStarts, String.data_append, List.isPrefixOf_iff_prefix]

theorem strDrop_append (pre rest : String) : strDrop pre.length (pre ++ rest) = rest := by
  simp only [strDrop, String.data_append]
  have hl : pre.length = pre.data.length := rfl
  rw [hl, List.drop_left]

theorem strTake_append_strDrop (n : Nat) (s : String) : strTake n s ++ strDrop n s = s := by
  show String.mk (s.data.take n ++ s.data.drop n) = s
  rw [List.take_append_drop]

theorem lookupKey_cons_self [BEq κ] [LawfulBEq κ] (l : List (κ × β)) (k : κ) (v : β) :
    lookupKey ((k, v) :: l) k = some v := by
  simp [lookupKey, List.find?]

theorem commit_blob_trees (st : Store) (b : Bytes) :
    ((commit_blob st b).1).trees = st.trees := by
  unfold commit_blob
  dsimp only
  split <;> rfl

theorem commit_blob_manifests (st : Store) (b : Bytes) :
    ((commit_blob st b).1).manifests = st.manifests := by
  unfold commit_blob
  dsimp only
  split <;> rfl

theorem commit_blob_aliases (st : Store) (b : Bytes) :
    ((commit_blob st b).1).aliases = st.aliases := by
  unfold commit_blob
  dsimp only
  split <;> rfl

theorem foldl_commit_blob_trees (d : Dir) (l : List TreeEntry) (st : Store) :
    (l.foldl (fun st e => (commit_blob st (dirRead d e.path)).1) st).trees = st.trees := by
  induction l generalizing st with
  | nil => rfl
  | cons e t ih => rw [List.foldl_cons, ih, commit_blob_trees]

theorem foldl_commit_blob_manifests (d : Dir) (l : List TreeEntry) (st : Store) :
    (l.foldl (fun st e => (commit_blob st (dirRead d e.path)).1) st).manifests = st.manifests := by
  induction l generalizing st with
  | nil => rfl
  | cons e t ih => rw [List.foldl_cons, ih, commit_blob_manifests]

theorem foldl_commit_blob_aliases (d : Dir) (l : List TreeEntry) (st : Store) :
    (l.foldl (fun st e => (commit_blob st (dirRead d e.path)).1) st).aliases = st.aliases := by
  induction l generalizing st with
  | nil => rfl
  | cons e t ih => rw [List.foldl_cons, ih, commit_blob_aliases]

theorem commit_tree_manifests (st : Store) (d : Dir) :
    ((commit_tree st d).1).manifests = st.manifests := by
  unfold commit_tree
  dsimp only
  split
  · rfl
  · show (Store.manifests _) = st.manifests
    simp only [foldl_commit_blob_manifests]

theorem commit_tree_aliases (st : Store) (d : Dir) :
    ((commit_tree st d).1).aliases = st.aliases := by
  unfold commit_tree
  dsimp only
  split
  · rfl
  · show (Store.aliases _) = st.aliases
    simp only [foldl_commit_blob_aliases]

theorem resolve_pres (ext : ExtDisk) (fuel : Nat) :
    ∀ store spec r, resolve_input_spec ext fuel store spec = .ok r →
      r.1.manifests = store.manifests ∧ r.1.aliases = store.aliases := by
  induction fuel with
  | zero =>
    intro store spec r h
    unfold resolve_input_spec at h
    dsimp only at h
    split at h
    · split at h
      · exact Except.ok.inj h ▸ ⟨commit_tree_manifests store _, commit_tree_aliases store _⟩
      · exact Except.ok.inj h ▸ ⟨commit_blob_manifests store _, commit_blob_aliases store _⟩
      · exact absurd h (by simp)
    · split at h
      · split at h
        · exact absurd h (by simp)
        · exact absurd h (by simp)
      · split at h
        · exact ⟨congrArg Store.manifests (congrArg Prod.fst (Except.ok.inj h)).symm,
            congrArg Store.aliases (congrArg Prod.fst (Except.ok.inj h)).symm⟩
        · split at h
          · exact ⟨congrArg Store.manifests (congrArg Prod.fst (Except.ok.inj h)).symm,
              congrArg Store.aliases (congrArg Prod.fst (Except.ok.inj h)).symm⟩
          · exact absurd h (by simp)
  | succ n ih =>
    intro store spec r h
    unfold resolve_input_spec at h
    dsimp only at h
    split at h
    · split at h
      · exact Except.ok.inj h ▸ ⟨commit_tree_manifests store _, commit_tree_aliases store _⟩
      · exact Except.ok.inj h ▸ ⟨commit_blob_manifests store _, commit_blob_aliases store _⟩
      · exact absurd h (by simp)
    · split at h
      · split at h
        · exact absurd h (by simp)
        · exact ih store _ r h
      · split at h
        · exact ⟨congrArg Store.manifests (congrArg Prod.fst (Except.ok.inj h)).symm,
            congrArg Store.aliases (congrArg Prod.fst (Except.ok.inj h)).symm⟩
        · split at h
          · exact ⟨congrArg Store.manifests (congrArg Prod.fst (Except.ok.inj h)).symm,
              congrArg Store.aliases (congrArg Prod.fst (Except.ok.inj h)).symm⟩
          · exact absurd h (by simp)

theorem runInputs_pres (ext : ExtDisk) (caps : Caps) (fuel : Nat) :
    ∀ specs store fs evs acc,
      (runInputs ext caps fuel store fs evs specs acc).1.manifests = store.manifests ∧
      (runInputs ext caps fuel store fs evs specs acc).1.aliases = store.aliases := by
  intro specs
  induction specs with
  | nil => intro store fs evs acc; exact ⟨rfl, rfl⟩
  | cons p rest ih =>
    intro store fs evs acc
    unfold runInputs
    split
    · exact ⟨rfl, rfl⟩
    · rename_i s1 tid ent heq
      have hres := resolve_pres ext fuel store p.2 (s1, tid, ent) heq
      split
      · exact ⟨hres.1, hres.2⟩
      · rename_i fsm meth heqm
        have hrec := ih s1 fsm (evs ++ [REvent.materializedInput p.1]) (acc ++ [(p.1, ent)])
        exact ⟨hrec.1.trans hres.1, hrec.2.trans hres.2⟩

theorem runInputs_events_ok (ext : ExtDisk) (caps : Caps) (fuel : Nat) :
    ∀ specs store fs evs acc store1 fs1 evs1 m,
      runInputs ext caps fuel store fs evs specs acc = (store1, fs1, evs1, .ok m) →
      evs1 = evs ++ specs.map (fun p => REvent.materializedInput p.1) := by
  intro specs
  induction specs with
  | nil =>
    intro store fs evs acc store1 fs1 evs1 m h
    simp only [runInputs, Prod.mk.injEq] at h
    simp [← h.2.2.1]
  | cons p rest ih =>
    intro store fs evs acc store1 fs1 evs1 m h
    unfold runInputs at h
    split at h
    · simp only [Prod.mk.injEq] at h
      exact absurd h.2.2.2 (by simp)
    · split at h
      · simp only [Prod.mk.injEq] at h
        exact absurd h.2.2.2 (by simp)
      · have := ih _ _ _ _ _ _ _ _ h
        simpa using this

theorem map_insertByKey (f : α → β) (kb : β → String) (key : α → String)
    (hk : ∀ a, key a = kb (f a)) (x : α) :
    ∀ l : List α, (insertByKey key x l).map f = insertByKey kb (f x) (l.map f) := by
  intro l
  induction l with
  | nil => rfl
  | cons y ys ih =>
    simp only [insertByKey, hk, List.map_cons]
    split <;> simp [List.map_cons, ih]

theorem map_sortByKey (f : α → β) (kb : β → String) (key : α → String)
    (hk : ∀ a, key a = kb (f a)) (l : List α) :
    (sortByKey key l).map f = sortByKey kb (l.map f) := by
  suffices h : ∀ acc, ((l.foldl (fun acc x => insertByKey key x acc) acc).map f) =
      (l.map f).foldl (fun acc x => insertByKey kb x acc) (acc.map f) by
    exact h []
  induction l with
  | nil => intro acc; rfl
  | cons y ys ih =>
    intro acc
    simp only [List.foldl_cons, List.map_cons]
    rw [ih, map_insertByKey f kb key hk]

/-- The tree digest is a function of the sorted (path, content) data of
the directory: metadata never reaches the digest input. -/
theorem tree_snapshot_fst_eq (root : Dir) :
    (tree_snapshot root).1 = sha256_bytes (canonical_json (Json.jarr
      ((sortByKey Prod.fst (root.map dirData)).map (fun pc =>
        Json.jarr [Json.jstr pc.1, Json.jstr (sha256_file pc.2)])))) := by
  unfold tree_snapshot iter_sorted
  dsimp only
  rw [← map_sortByKey dirData Prod.fst (fun fl => fl.path) (fun a => rfl) root, List.map_map]
  rfl

/-- The tree digest is the digest of the canonical JSON of the
`[path, blob]` pairs of the entries the snapshot reports. -/
theorem tree_id_eq_pairs (root : Dir) :
    (tree_snapshot root).1 =
      sha256_bytes (canonical_json (entryPairsJson (tree_snapshot root).2)) := by
  unfold tree_snapshot entryPairsJson
  dsimp only
  rw [List.map_map]
  rfl

theorem fsLookup_fsSet (fs : FS) (p : SPath) (n : FsNode) :
    fsLookup (fsSet fs p n) p = some n := by
  simp [fsLookup, fsSet, lookupKey, List.find?]

/-- A successful run resolved all of its inputs and derived its run id by
combining the code hash with the input, parameter and environment
digests. -/
theorem run_ok_shape (ext : ExtDisk) (fns : StepFns) (args : RunArgs) (store0 : Store)
    (rid : String) (h : (run_step_file ext fns args store0).result = .ok rid) :
    ∃ sI fsI evs m,
      runInputs ext args.caps args.fuel store0 [] [] args.input_specs [] = (sI, fsI, evs, .ok m) ∧
      rid = computeRunId args.code_h (sha256_bytes (canonical_json (inputTriples m)))
        (sha256_bytes (canonical_json args.params_eff))
        (sha256_bytes (canonical_json args.env_summary)) := by
  rcases heq : runInputs ext args.caps args.fuel store0 [] [] args.input_specs []
    with ⟨sI, fsI, evs, res⟩
  unfold run_step_file at h
  rw [heq] at h
  cases res with
  | error er => exact absurd h (by simp)
  | ok m =>
    refine ⟨sI, fsI, evs, m, rfl, ?_⟩
    dsimp only at h
    split at h
    · exact absurd h (by simp)
    · split at h
      · exact absurd h (by simp)
      · split at h
        · exact absurd h (by simp)
        · exact (Except.ok.inj h).symm

theorem countKey_zero [BEq κ] (l : List (κ × β)) (k : κ) (h : lookupKey l k = none) :
    countKey l k = 0 := by
  have hf : l.find? (fun e => e.1 == k) = none := by
    cases hx : l.find? (fun e => e.1 == k) with
    | none => rfl
    | some v => rw [lookupKey, hx] at h; exact absurd h (by simp)
  rw [List.find?_eq_none] at hf
  simp only [countKey, List.length_eq_zero, List.filter_eq_nil_iff]
  exact hf

theorem countKey_cons_self [BEq κ] [LawfulBEq κ] (l : List (κ × β)) (k : κ) (v : β) :
    countKey ((k, v) :: l) k = countKey l k + 1 := by
  simp [countKey, List.filter_cons]

/- ## Claims -/

/-- C6 (confirmed): `combine(id₁, …, idₙ)` is the digest of the UTF-8
encoding of the ids joined by the single separator `"|"`, and it is
order-sensitive and non-commutative: swapping two distinct ids changes
the combined digest. -/
theorem C6_combine_hashes (ids : List String) :
    combine_hashes ids = sha256_bytes (utf8 (String.intercalate "|" ids)) ∧
    ∃ a b : String, a ≠ b ∧ combine_hashes [a, b] ≠ combine_hashes [b, a] :=
  ⟨rfl, "sha256:aa", "sha256:bb", by decide, by decide⟩

/-- C5 (confirmed): the tree digest is `digest_bytes` of the canonical
JSON of the `[path, blob-id]` pairs sorted by path; the `size` field does
not take part (two directories with the same path/content data but
different metadata share the digest); and the empty directory digests the
two bytes `"[]"` (91, 93). -/
theorem C5_tree_digest (root root2 : Dir) (h : root.map dirData = root2.map dirData) :
    (tree_snapshot root).1 =
      sha256_bytes (canonical_json (entryPairsJson (tree_snapshot root).2)) ∧
    (tree_snapshot root).1 = (tree_snapshot root2).1 ∧
    (tree_snapshot ([] : Dir)).1 = sha256_bytes [91, 93] := by
  refine ⟨tree_id_eq_pairs root, ?_, by decide⟩
  rw [tree_snapshot_fst_eq root, tree_snapshot_fst_eq root2, h]

/-- Witness for C5 at a concrete pair of directories that differ only in
`mtime` and `mode`. -/
theorem C5_tree_digest_witness :
    ([⟨"a.txt", [65], 1, 1⟩] : Dir).map dirData = ([⟨"a.txt", [65], 2, 2⟩] : Dir).map dirData ∧
    ((tree_snapshot ([⟨"a.txt", [65], 1, 1⟩] : Dir)).1 =
      sha256_bytes (canonical_json (entryPairsJson
        (tree_snapshot ([⟨"a.txt", [65], 1, 1⟩] : Dir)).2)) ∧
    (tree_snapshot ([⟨"a.txt", [65], 1, 1⟩] : Dir)).1 =
      (tree_snapshot ([⟨"a.txt", [65], 2, 2⟩] : Dir)).1 ∧
    (tree_snapshot ([] : Dir)).1 = sha256_bytes [91, 93]) :=
  ⟨by decide, C5_tree_digest _ _ (by decide)⟩

/-- C4 (counterexample): committing the one-file directory `d4` stores a
tree whose re-canonicalized (version, entries) document hashes to a
digest DIFFERENT from the name the file is stored under — the storage
name hashes only the `[path, blob]` pairs. -/
theorem C4_counterexample :
    ((commit_tree emptyStore d4).1.trees.map recanonMatches) = [false] := by decide

/-- C4 (amended): for every tree committed to the store, the storage
name hex is the digest of the canonical JSON of the `[path, blob]` pairs
of the stored entries (version and size do not take part), and the
stored bytes are the sorted-keys dump of the (version, entries)
document. -/
theorem C4_amended_tree_name (store : Store) (d : Dir) (h : treeInv store) :
    treeInv (commit_tree store d).1 := by
  unfold commit_tree
  dsimp only
  split
  · exact h
  · intro pr hpr
    dsimp only at hpr
    rcases List.mem_cons.mp hpr with hnew | hold
    · subst hnew
      refine ⟨?_, rfl⟩
      rw [← tree_id_eq_pairs d]
    · have htr : (List.foldl (fun st e => (commit_blob st (dirRead d e.path)).1) store
          (tree_snapshot d).2).trees = store.trees := foldl_commit_blob_trees d _ store
      exact h pr (htr ▸ hold)

/-- Witness for C4's amended theorem: the empty store satisfies the
invariant, and committing `d4` preserves it. -/
theorem C4_amended_tree_name_witness : treeInv (commit_tree emptyStore d4).1 :=
  C4_amended_tree_name emptyStore d4 (by intro pr hpr; exact absurd hpr (by simp [emptyStore]))

/-- C9 (counterexample): `commit_blob` does store the bytes at the
fan-out path, but that path's final name component is the digest hex
with its first two characters removed, not the full hex. -/
theorem C9_counterexample :
    lookupKey (commit_blob emptyStore [65]).1.blobs
      (fanoutDir "blobs" (strDrop 7 (sha256_file [65]))) = some [65] ∧
    (fanoutDir "blobs" (strDrop 7 (sha256_file [65]))).getLast? ≠
      some (strDrop 7 (sha256_file [65])) := by
  decide

/-- C9 (amended): `commit_blob` returns the digest of the bytes, stores
fresh bytes at `blobs/sha256/<hex[:2]>/<hex[2:]>` — whose last two
components concatenate back to the full hex — leaves exactly one entry
at that path, and a second commit of the same bytes is a no-op returning
the same digest. -/
theorem C9_amended_blob_commit (store : Store) (b : Bytes) :
    (commit_blob store b).2 = sha256_file b ∧
    commit_blob (commit_blob store b).1 b = ((commit_blob store b).1, (commit_blob store b).2) ∧
    fanoutDir "blobs" (strDrop 7 (sha256_file b)) =
      ["blobs", "sha256", strTake 2 (strDrop 7 (sha256_file b)),
        strDrop 2 (strDrop 7 (sha256_file b))] ∧
    strTake 2 (strDrop 7 (sha256_file b)) ++ strDrop 2 (strDrop 7 (sha256_file b)) =
      strDrop 7 (sha256_file b) ∧
    (lookupKey store.blobs (fanoutDir "blobs" (strDrop 7 (sha256_file b))) = none →
      lookupKey (commit_blob store b).1.blobs (fanoutDir "blobs" (strDrop 7 (sha256_file b))) =
        some b ∧
      countKey (commit_blob store b).1.blobs (fanoutDir "blobs" (strDrop 7 (sha256_file b))) = 1) := by
  refine ⟨?_, ?_, rfl, strTake_append_strDrop 2 _, ?_⟩
  · unfold commit_blob
    dsimp only
    split <;> rfl
  · unfold commit_blob
    dsimp only
    by_cases hc : (lookupKey store.blobs (fanoutDir "blobs" (strDrop 7 (sha256_file b)))).isSome
    · simp [hc]
    · simp [hc, lookupKey_cons_self]
  · intro hnone
    unfold commit_blob
    dsimp only
    rw [hnone]
    simp only [Option.isSome_none, Bool.false_eq_true, if_false]
    exact ⟨lookupKey_cons_self _ _ _,
      by rw [countKey_cons_self, countKey_zero store.blobs _ hnone]⟩

/-- Witness for C9's amended theorem at the byte string `"A"`. -/
theorem C9_amended_blob_commit_witness :
    lookupKey emptyStore.blobs (fanoutDir "blobs" (strDrop 7 (sha256_file [65]))) = none ∧
    ((commit_blob emptyStore [65]).2 = sha256_file [65] ∧
      lookupKey (commit_blob emptyStore [65]).1.blobs
        (fanoutDir "blobs" (strDrop 7 (sha256_file [65]))) = some [65] ∧
      countKey (commit_blob emptyStore [65]).1.blobs
        (fanoutDir "blobs" (strDrop 7 (sha256_file [65]))) = 1) :=
  ⟨by decide,
    (C9_amended_blob_commit emptyStore [65]).1,
    ((C9_amended_blob_commit emptyStore [65]).2.2.2.2 (by decide)).1,
    ((C9_amended_blob_commit emptyStore [65]).2.2.2.2 (by decide)).2⟩

/-- C10 (confirmed): materializing a blob typed id whose object file is
absent from the store raises no error on a symlink-capable filesystem:
`prefer_link` creates a dangling symlink at the destination pointing at
the missing store path and reports `"symlink"`. -/
theorem C10_dangling_symlink (caps : Caps) (store : Store) (fs : FS) (blob : String)
    (dst : SPath) (hs : caps.symlinkOk = true)
    (hmiss : lookupKey store.blobs (blob_path ("sha256:" ++ blob)) = none) :
    ∃ fs2, materialize_input caps store fs ("blob:sha256:" ++ blob) dst = .ok (fs2, "symlink") ∧
      fsLookup fs2 dst = some (.symlinkN (blob_path ("sha256:" ++ blob))) := by
  have h1 : strStarts ("blob:sha256:" ++ blob) "blob:sha256:" = true := strStarts_append _ _
  have h2 : strDrop 12 ("blob:sha256:" ++ blob) = blob := strDrop_append "blob:sha256:" blob
  unfold materialize_input
  rw [h1]
  simp only [if_true, h2]
  unfold prefer_link
  dsimp only
  rw [hmiss, hs]
  simp only [if_true]
  exact ⟨_, rfl, fsLookup_fsSet _ _ _⟩

/-- Witness for C10 at a concrete absent blob id. -/
theorem C10_dangling_symlink_witness :
    (⟨true, true⟩ : Caps).symlinkOk = true ∧
    lookupKey emptyStore.blobs (blob_path ("sha256:" ++ "ab")) = none ∧
    ∃ fs2, materialize_input ⟨true, true⟩ emptyStore [] ("blob:sha256:" ++ "ab") ["d"] =
        .ok (fs2, "symlink") ∧
      fsLookup fs2 ["d"] = some (.symlinkN (blob_path ("sha256:" ++ "ab"))) :=
  ⟨rfl, by decide, C10_dangling_symlink ⟨true, true⟩ emptyStore [] "ab" ["d"] rfl (by decide)⟩

/-- C3 (code defect): alias resolution carries no depth bound at all.
On the circular alias store (`a` -> `alias:a`), granting the resolver any
recursion depth `n` whatsoever still ends in depth exhaustion — the
Python original recurses until the interpreter stack dies
(`RecursionError`), there is no designed small bound and no clean
error. -/
theorem C3_alias_resolution_unbounded (n : Nat) :
    resolve_input_spec [] n cyclicStore "alias:a" = .error "RecursionError" := by
  induction n with
  | zero => rfl
  | succ k ih =>
    have hstep : resolve_input_spec [] (k + 1) cyclicStore "alias:a" =
        resolve_input_spec [] k cyclicStore "alias:a" := rfl
    rw [hstep, ih]

/-- C2 (code defect, evaluated at the failing input): materializing the
committed two-entry tree `d2` creates the destination directory and
links the first entry, but never links the second — `used or
prefer_link(...)` short-circuits once `used` is set, so
`dest/b.txt` does not exist after materialization. -/
theorem C2_materialize_links_only_first_entry :
    matRes2.toOption.map (fun r => (r.2, fsLookup r.1 ["dest"],
        (fsLookup r.1 ["dest", "a.txt"]).isSome, fsLookup r.1 ["dest", "b.txt"])) =
      some ("symlink", some .dirN, true, none) := by
  decide

/-- Either a run succeeds, or it left manifests and aliases exactly as
they were: every store write to those trees happens after the last
possible exception. -/
theorem run_error_or_pres (ext : ExtDisk) (fns : StepFns) (args : RunArgs) (store0 : Store) :
    (∃ rid, (run_step_file ext fns args store0).result = .ok rid) ∨
    ((run_step_file ext fns args store0).store.manifests = store0.manifests ∧
     (run_step_file ext fns args store0).store.aliases = store0.aliases) := by
  unfold run_step_file
  rcases heq : runInputs ext args.caps args.fuel store0 [] [] args.input_specs []
    with ⟨sI, fsI, evs, res⟩
  have hpres := runInputs_pres ext args.caps args.fuel args.input_specs store0 [] [] []
  rw [heq] at hpres
  cases res with
  | error er => exact Or.inr hpres
  | ok m =>
    dsimp only
    split
    · exact Or.inr hpres
    · split
      · exact Or.inr hpres
      · split
        · exact Or.inr hpres
        · exact Or.inl ⟨_, rfl⟩

/-- C7 (confirmed): if the run aborts with an exception — in particular
when one of the three step phases raises — no manifest is written for
its run id and no alias is set: the manifests and aliases of the store
are untouched. -/
theorem C7_abort_no_manifest (ext : ExtDisk) (fns : StepFns) (args : RunArgs) (store0 : Store)
    (e : String) (h : (run_step_file ext fns args store0).result = .error e) :
    (run_step_file ext fns args store0).store.manifests = store0.manifests ∧
    (run_step_file ext fns args store0).store.aliases = store0.aliases := by
  rcases run_error_or_pres ext fns args store0 with ⟨rid, hok⟩ | hp
  · rw [hok] at h; exact absurd h (by simp)
  · exact hp

/-- Witness for C7: a run whose load phase raises leaves the empty
store's manifests and aliases empty. -/
theorem C7_abort_no_manifest_witness :
    (run_step_file [] cFnsBad cArgs1 emptyStore).result = .error "load failed" ∧
    ((run_step_file [] cFnsBad cArgs1 emptyStore).store.manifests = emptyStore.manifests ∧
     (run_step_file [] cFnsBad cArgs1 emptyStore).store.aliases = emptyStore.aliases) :=
  ⟨rfl, C7_abort_no_manifest [] cFnsBad cArgs1 emptyStore "load failed" rfl⟩

/-- Every run either aborts, or its event trace has the stage shape:
input materializations in spec order, the three phases, the output
commits, the manifest write, the optional alias write. -/
theorem run_events_shape (ext : ExtDisk) (fns : StepFns) (args : RunArgs) (store0 : Store) :
    (∃ e, (run_step_file ext fns args store0).result = .error e) ∨
    (∃ (outNames : List String) (rid : String),
      (run_step_file ext fns args store0).result = .ok rid ∧
      (run_step_file ext fns args store0).events =
        args.input_specs.map (fun p => REvent.materializedInput p.1) ++
        [.phaseStart "load", .phaseStart "core", .phaseStart "save"] ++
        outNames.map REvent.committedOutput ++ [.wroteManifest rid] ++
        (match args.aliasName with | some a => [REvent.aliasSet a] | none => [])) := by
  unfold run_step_file
  rcases heq : runInputs ext args.caps args.fuel store0 [] [] args.input_specs []
    with ⟨sI, fsI, evs, res⟩
  cases res with
  | error er => exact Or.inl ⟨er, rfl⟩
  | ok m =>
    have hevs := runInputs_events_ok ext args.caps args.fuel args.input_specs
      store0 [] [] [] sI fsI evs m heq
    dsimp only
    split
    · exact Or.inl ⟨_, rfl⟩
    · split
      · exact Or.inl ⟨_, rfl⟩
      · split
        · exact Or.inl ⟨_, rfl⟩
        · rename_i out_dir hsave
          refine Or.inr ⟨(scan_outputs_and_commit sI out_dir).2.map Prod.fst, _, rfl, ?_⟩
          rw [hevs]
          simp [List.map_map]

/-- C8 (confirmed): in every successful run the events are exactly: one
materialization per input (all before any phase), then the load, core
and save phases in order, then the output commits (all before the
manifest write), then the manifest write, then the alias write when an
alias was requested. -/
theorem C8_run_event_order (ext : ExtDisk) (fns : StepFns) (args : RunArgs) (store0 : Store)
    (rid : String) (h : (run_step_file ext fns args store0).result = .ok rid) :
    ∃ outNames : List String,
      (run_step_file ext fns args store0).events =
        args.input_specs.map (fun p => REvent.materializedInput p.1) ++
        [.phaseStart "load", .phaseStart "core", .phaseStart "save"] ++
        outNames.map REvent.committedOutput ++ [.wroteManifest rid] ++
        (match args.aliasName with | some a => [REvent.aliasSet a] | none => []) := by
  rcases run_events_shape ext fns args store0 with ⟨e, herr⟩ | ⟨names, rid2, hok, hev⟩
  · rw [herr] at h; exact absurd h (by simp)
  · have hr : rid2 = rid := by rw [hok] at h; exact Except.ok.inj h
    exact ⟨names, hr ▸ hev⟩

/-- Witness for C8: a concrete successful run with an alias. -/
theorem C8_run_event_order_witness :
    (run_step_file [] cFns cArgs3 emptyStore).result = .ok c1rid ∧
    ∃ outNames : List String,
      (run_step_file [] cFns cArgs3 emptyStore).events =
        cArgs3.input_specs.map (fun p => REvent.materializedInput p.1) ++
        [.phaseStart "load", .phaseStart "core", .phaseStart "save"] ++
        outNames.map REvent.committedOutput ++ [.wroteManifest c1rid] ++
        (match cArgs3.aliasName with | some a => [REvent.aliasSet a] | none => []) :=
  ⟨rfl, C8_run_event_order [] cFns cArgs3 emptyStore c1rid rfl⟩

/-- C1 (amended): two runs on the same store with the same code hash,
input specs, effective params, environment summary, linking capabilities
and resolution depth derive the identical run id — the timestamp, step
name and path, provenance, alias and even the phase bodies do not enter
it; and when every remaining argument (timestamp included) also
coincides, the stored manifests are byte-identical. -/
theorem C1_amended_determinism (a1 a2 : RunArgs) (fns1 fns2 : StepFns) (ext : ExtDisk)
    (store0 : Store) (rid1 rid2 : String)
    (hc : a1.code_h = a2.code_h) (hi : a1.input_specs = a2.input_specs)
    (hp : a1.params_eff = a2.params_eff) (he : a1.env_summary = a2.env_summary)
    (hcap : a1.caps = a2.caps) (hf : a1.fuel = a2.fuel)
    (h1 : (run_step_file ext fns1 a1 store0).result = .ok rid1)
    (h2 : (run_step_file ext fns2 a2 store0).result = .ok rid2) :
    rid1 = rid2 ∧
    (a1.step_name = a2.step_name → a1.step_path = a2.step_path →
      a1.params_prov = a2.params_prov → a1.timestamp = a2.timestamp →
      a1.aliasName = a2.aliasName → fns1 = fns2 →
      (run_step_file ext fns1 a1 store0).store.manifests =
        (run_step_file ext fns2 a2 store0).store.manifests) := by
  obtain ⟨sI1, fsI1, evs1, m1, heq1, hrid1⟩ := run_ok_shape ext fns1 a1 store0 rid1 h1
  obtain ⟨sI2, fsI2, evs2, m2, heq2, hrid2⟩ := run_ok_shape ext fns2 a2 store0 rid2 h2
  have hri : runInputs ext a1.caps a1.fuel store0 [] [] a1.input_specs [] =
      runInputs ext a2.caps a2.fuel store0 [] [] a2.input_specs [] := by
    rw [hcap, hf, hi]
  rw [hri, heq2] at heq1
  have hm : m2 = m1 := by
    simp only [Prod.mk.injEq] at heq1
    exact Except.ok.inj heq1.2.2.2
  constructor
  · rw [hrid1, hrid2, hc, hp, he, hm]
  · intro hn hsp hprov ht hal hfns
    have haeq : a1 = a2 := by
      cases a1; cases a2
      dsimp only at hc hi hp he hcap hf hn hsp hprov ht hal
      simp only [RunArgs.mk.injEq]
      exact ⟨hn, hsp, hc, hp, hprov, hi, he, ht, hal, hcap, hf⟩
    rw [haeq, hfns]

/-- Witness for C1's amended theorem: two runs differing in step name,
path, provenance, timestamp and alias still derive the same run id. -/
theorem C1_amended_determinism_witness :
    (run_step_file [] cFns cArgs1 emptyStore).result = .ok c1rid ∧
    (run_step_file [] cFns cArgs3 emptyStore).result = .ok c1rid ∧ c1rid = c1rid :=
  ⟨rfl, rfl,
    (C1_amended_determinism cArgs1 cArgs3 cFns cFns [] emptyStore c1rid c1rid
      rfl rfl rfl rfl rfl rfl rfl rfl).1⟩

/-- C1 (counterexample): two runs with identical code hash, inputs,
params and environment summary but different wall-clock timestamps
produce the identical run id, yet the manifests written for that run id
are NOT byte-identical — `timestamp_utc` differs. -/
theorem C1_counterexample :
    (run_step_file [] cFns cArgs1 emptyStore).result = .ok c1rid ∧
    (run_step_file [] cFns cArgs2 emptyStore).result = .ok c1rid ∧
    cArgs1.code_h = cArgs2.code_h ∧ cArgs1.input_specs = cArgs2.input_specs ∧
    cArgs1.params_eff = cArgs2.params_eff ∧ cArgs1.env_summary = cArgs2.env_summary ∧
    lookupKey (run_step_file [] cFns cArgs1 emptyStore).store.manifests (manifest_path c1rid) ≠
      lookupKey (run_step_file [] cFns cArgs2 emptyStore).store.manifests
        (manifest_path c1rid) :=
  ⟨rfl, rfl, rfl, rfl, rfl, rfl, by decide⟩

end Repro
